import Mathlib

/-!
Verification of the replay streaming engine of the ukraine-fire-tracking
repository (src/app.py, src/config.py) against its natural-language
specification.

Shallow embedding conventions:
* Timestamps (`datetime` values and the `datetime_utc` column) are modelled as
  natural numbers counting seconds; `timedelta(hours = h)` is `h * 3600`
  seconds and `timedelta(days = 30)` is `2592000` seconds.  The ETL
  (src/database_loader.py) stores every `datetime_utc` with whole seconds and
  no microseconds, so second granularity is exact.
* The SQLite store is a list of rows plus a fault oracle: `DB.fails s e`
  says whether the `SELECT` over the interval `(s, e]` raises a storage-layer
  error (models `except Exception` in `query_interval`).
* The producer thread (`FireDataProducer.run_producer`) is modelled as a state
  machine; one `Cmd` is one interleaved event: a loop iteration whose
  `elapsed >= 1.0` test succeeded (`tick`), a loop iteration whose test failed
  (`poll`), or one of the socket command handlers mutating the shared fields
  (`pause`, `resume`, `set_speed`).  The bounded queue is modelled as the list
  of items ever put (the channel is FIFO single-producer/single-consumer, so
  the consumer observes exactly this list in order).
* The consumer thread (`FireDataConsumer.run_consumer`) folds over that list.
-/

namespace FireTracking

/-! ## Speed catalog (src/config.py) -/

/-- The five keys of `config.PLAYBACK_SPEEDS`.  Internally the producer's
`current_speed` always holds one of these keys (it is initialised to
`DEFAULT_SPEED` and only overwritten after a successful membership test). -/
inductive Speed where
  | slowest
  | slow
  | normal
  | fast
  | fastest
deriving DecidableEq, Repr

/-- The catalog key string of a speed tier. -/
def Speed.key : Speed → String
  | .slowest => "slowest"
  | .slow => "slow"
  | .normal => "normal"
  | .fast => "fast"
  | .fastest => "fastest"

/-- `config.PLAYBACK_SPEEDS` — hours of historical data per second of
playback, as a lookup on the key strings (`None` models a missing key). -/
def PLAYBACK_SPEEDS (k : String) : Option Nat :=
  if k = "slowest" then some 6
  else if k = "slow" then some 24
  else if k = "normal" then some 72
  else if k = "fast" then some 168
  else if k = "fastest" then some 336
  else none

/-- `speed_key in config.PLAYBACK_SPEEDS`, returning the validated tier. -/
def parseSpeed (k : String) : Option Speed :=
  if k = "slowest" then some .slowest
  else if k = "slow" then some .slow
  else if k = "normal" then some .normal
  else if k = "fast" then some .fast
  else if k = "fastest" then some .fastest
  else none

/-- `config.PLAYBACK_SPEEDS[self.current_speed]` for a validated key (the
dictionary access cannot fail for a catalog key). -/
def speedHours : Speed → Nat
  | .slowest => 6
  | .slow => 24
  | .normal => 72
  | .fast => 168
  | .fastest => 336

/-- `config.DEFAULT_SPEED`. -/
def DEFAULT_SPEED : String := "slow"

/-- `config.get_queue_size`: queue capacity from the playback speed; an
unknown key falls back to `PLAYBACK_SPEEDS['normal'] = 72`. -/
def get_queue_size (k : String) : Nat :=
  let speed_hours := (PLAYBACK_SPEEDS k).getD 72
  if speed_hours ≤ 24 then 100
  else if speed_hours ≤ 72 then 500
  else if speed_hours ≤ 168 then 1000
  else 2000

/-- `config.get_fade_duration`: marker fade duration in seconds (a float in
the source; its values 2.0, 1.0, 0.5, 0.25 are exact rationals). -/
def get_fade_duration (k : String) : ℚ :=
  let speed_hours := (PLAYBACK_SPEEDS k).getD 72
  if speed_hours ≤ 24 then 2
  else if speed_hours ≤ 72 then 1
  else if speed_hours ≤ 168 then 1 / 2
  else 1 / 4

/-! ## Store rows and the SQLite query semantics -/

/-- One row of the `fire_events` table.  Only `id` and `datetime_utc` take
part in any control flow of the engine; the remaining columns (REAL intensity
metrics, TEXT attributes, the optional correlation columns) are carried
through untouched and are not modelled. -/
structure Row where
  id : Nat
  datetime_utc : Nat
deriving DecidableEq, Repr

/-- The SQLite database together with a fault oracle: `fails s e = true`
means the `SELECT` over `(s, e]` raises a storage-layer error. -/
structure DB where
  rows : List Row
  fails : Nat → Nat → Bool

/-- A fault-free store: no interval query raises. -/
def faultFree (db : DB) : Prop := ∀ s e, db.fails s e = false

/-- Row order used by `ORDER BY datetime_utc`. -/
def rowLe (x y : Row) : Prop := x.datetime_utc ≤ y.datetime_utc

instance : DecidableRel rowLe := fun x y => Nat.decLe x.datetime_utc y.datetime_utc

instance : IsTotal Row rowLe := ⟨fun x y => Nat.le_total x.datetime_utc y.datetime_utc⟩

instance : IsTrans Row rowLe := ⟨fun _ _ _ h h' => Nat.le_trans h h'⟩

/-- The row predicate of
`WHERE datetime_utc > ? AND datetime_utc <= ?` with both parameters bound via
`strftime('%Y-%m-%d %H:%M:%S')`: that format equals the stored format
(the sqlite3 adapter stores `datetime` values as `isoformat(' ')`), so the
lexicographic TEXT comparison coincides with numeric comparison of the
modelled second counts. -/
def inInterval (s e : Nat) (r : Row) : Bool :=
  decide (s < r.datetime_utc) && decide (r.datetime_utc ≤ e)

/-- Semantics of the `SELECT ... WHERE datetime_utc > ? AND datetime_utc <= ?
ORDER BY datetime_utc` statement of `query_interval`: all matching rows (no
`LIMIT`), sorted ascending by timestamp.  Ties are returned in a fixed
deterministic order (`ORDER BY` leaves tie order unspecified; a stable sort
is one admissible refinement).  A storage fault surfaces as an exception. -/
def rawQuery (db : DB) (s e : Nat) : Except String (List Row) :=
  if db.fails s e then .error "Database query error"
  else .ok (List.insertionSort rowLe (db.rows.filter (inInterval s e)))

/-- Number of store rows in the half-open interval `(s, e]`. -/
def countInterval (db : DB) (s e : Nat) : Nat :=
  List.countP (inInterval s e) db.rows

/-! ## `FireDataProducer.query_interval` (src/app.py lines 93-158) -/

/-- The record dictionary built for each row by `query_interval`.  The
passthrough columns are represented by the row; `fade_duration` is the one
field computed by the producer (`config.get_fade_duration(self.current_speed)`).
The correlation fields (`is_matched` etc.) default when the columns are
absent and are otherwise passed through; they take part in no control flow
and are not modelled. -/
structure Rec where
  id : Nat
  datetime_utc : Nat
  fade_duration : ℚ
deriving DecidableEq, Repr

/-- Conversion of a fetched row to the emitted record dictionary. -/
def toRec (sp : Speed) (r : Row) : Rec :=
  { id := r.id, datetime_utc := r.datetime_utc,
    fade_duration := get_fade_duration sp.key }

/-- `FireDataProducer.query_interval(start_dt, end_dt)`: runs the interval
`SELECT`; on any storage-layer exception logs the error and returns `[]`,
never propagating the exception. -/
def query_interval (db : DB) (sp : Speed) (start_dt end_dt : Nat) : List Rec :=
  match rawQuery db start_dt end_dt with
  | .ok rows => rows.map (toRec sp)
  | .error _ => []

/-! ## The total-records count of `run_producer` (src/app.py lines 170-178)

`run_producer` counts `WHERE datetime_utc >= ? AND datetime_utc <= ?` but
binds the parameters with `datetime.isoformat()`, i.e. `"YYYY-MM-DDTHH:MM:SS"`
— while the stored values read `"YYYY-MM-DD HH:MM:SS"` (space separator).
SQLite compares TEXT with memcmp.  Both formats share the zero-padded 10-byte
date prefix, whose lexicographic order agrees with chronological order; when
the dates are equal the comparison is decided at byte 10, where `' '` (0x20)
is strictly below `'T'` (0x54), so the stored value is strictly below the
bound.  Hence, writing `day t = t / 86400`:
  stored ≥ bound  ↔  day stored > day bound, and
  stored ≤ bound  ↔  day stored ≤ day bound. -/

/-- `datetime_utc >= ?` with an isoformat-bound parameter. -/
def storedGeIsoBound (t bound : Nat) : Bool := decide (bound / 86400 < t / 86400)

/-- `datetime_utc <= ?` with an isoformat-bound parameter. -/
def storedLeIsoBound (t bound : Nat) : Bool := decide (t / 86400 ≤ bound / 86400)

/-- The rows selected by the `COUNT(*)` statement of `run_producer`. -/
def totalSelected (db : DB) (a b : Nat) : List Row :=
  db.rows.filter (fun r => storedGeIsoBound r.datetime_utc a &&
                           storedLeIsoBound r.datetime_utc b)

/-- The value assigned to `self.total_records` at the start of a run. -/
def totalRecords (db : DB) (a b : Nat) : Nat := (totalSelected db a b).length

/-! ## Queue items and producer state (src/app.py lines 34-260) -/

/-- The dictionaries put on `data_queue`: a `'fire_batch'` or the
`'end_of_data'` sentinel. -/
structure Batch where
  records : List Rec
  timestamp : Nat
  speed : Speed
deriving DecidableEq, Repr

inductive QItem where
  | fire_batch (b : Batch)
  | end_of_data
deriving DecidableEq, Repr

/-- The mutable fields of `FireDataProducer` (and the channel history).
`queue` records every item ever put on the bounded queue, in order; the
`Queue.put` either succeeds (possibly after blocking) — it never raises —
so the `except` arm around it is dead.  `ended` records that the
`run_producer` loop has been exited (after which the `finally` block has
already put the sentinel and reset `is_running`). -/
structure PState where
  start_date : Option Nat
  end_date : Option Nat
  cursor : Option Nat
  speed : Speed
  paused : Bool
  running : Bool
  ended : Bool
  processed : Nat
  total : Nat
  queue : List QItem
deriving Repr

/-- `FireDataProducer.__init__`: `current_speed = config.DEFAULT_SPEED`
(`'slow'`), no dates, counters zero. -/
def mkProducer : PState :=
  { start_date := none, end_date := none, cursor := none,
    speed := .slow, paused := false, running := false, ended := false,
    processed := 0, total := 0, queue := [] }

/-- One interleaved event of a running session. `tick` is a loop iteration
whose `elapsed >= 1.0` test succeeded, `poll` one where it failed (the
iteration only checks the `while` condition and sleeps); `pause` / `resume` /
`set_speed` are the socket command handlers mutating the shared fields. -/
inductive Cmd where
  | tick
  | poll
  | pause
  | resume
  | set_speed (k : String)
deriving DecidableEq, Repr

/-- Exiting the `while` loop of `run_producer`: the `finally` block puts the
`end_of_data` sentinel and clears `is_running`. -/
def exitLoop (s : PState) : PState :=
  { s with ended := true, running := false, queue := s.queue ++ [.end_of_data] }

/-- The tick body (src/app.py lines 194-237), for current cursor `c` and end
date `e`: compute the clamped `next_datetime`, query `(c, next]`; on an empty
result with `c < e` run the 30-day lookahead probe and, if it is also empty,
`break` out of the loop (the `finally` block then puts the sentinel —
modelled via `exitLoop` since no further iteration runs in between);
otherwise put the batch, bump `processed_records` when the batch is
non-empty, and advance the cursor. -/
def tickBody (db : DB) (s : PState) (c e : Nat) : PState :=
  let hours_per_second := speedHours s.speed
  let next0 := c + hours_per_second * 3600
  let next := if next0 > e then e else next0
  let records := query_interval db s.speed c next
  let pushed : PState :=
    { s with queue := s.queue ++ [.fire_batch ⟨records, next, s.speed⟩],
             processed := if records = [] then s.processed
                          else s.processed + records.length,
             cursor := some next }
  if records = [] ∧ c < e then
    let future0 := c + 2592000
    let future := if future0 > e then e else future0
    if query_interval db s.speed c future = [] then exitLoop s
    else pushed
  else pushed

/-- One interleaved event.  Loop iterations (`tick`, `poll`) first check the
`while` condition `self.is_running and self.current_datetime <= self.end_date`
and exit the loop when it fails; a `tick` then runs the body unless
`is_paused`.  After the loop has been exited (`ended`) further iterations do
not exist, while command handlers still mutate the shared flags. -/
def step (db : DB) (s : PState) : Cmd → PState
  | .pause => { s with paused := true }
  | .resume => { s with paused := false }
  | .set_speed k =>
      match parseSpeed k with
      | some sp => { s with speed := sp }
      | none => s
  | .poll =>
      if s.ended then s
      else
        match s.cursor, s.end_date with
        | some c, some e => if s.running ∧ c ≤ e then s else exitLoop s
        | _, _ => s
  | .tick =>
      if s.ended then s
      else
        match s.cursor, s.end_date with
        | some c, some e =>
            if s.running ∧ c ≤ e then
              if s.paused then s else tickBody db s c e
            else exitLoop s
        | _, _ => s

/-- The producer state at the top of the `run_producer` loop for a session
over `[a, b]` at tier `sp`: `set_date_range` stored the range and set the
cursor, the start handler cleared `is_paused`, and the entry code of
`run_producer` set `is_running`, computed `total_records` and reset the
cursor to the start date.  (`processed_records` is only ever reset in
`__init__`; it is zero for the first session of the process, which is the
session modelled here.) -/
def sessionInit (db : DB) (a b : Nat) (sp : Speed) : PState :=
  { start_date := some a, end_date := some b, cursor := some a,
    speed := sp, paused := false, running := true, ended := false,
    processed := 0, total := totalRecords db a b, queue := [] }

/-- A session run: the initial state driven by a sequence of interleaved
events. -/
def runP (db : DB) (a b : Nat) (sp : Speed) (cmds : List Cmd) : PState :=
  cmds.foldl (step db) (sessionInit db a b sp)

/-! ## Consumer (src/app.py lines 263-335) -/

/-- One `'fire_update'` event emitted to the clients: the records, the window
timestamp, the speed, and the statistics snapshot taken after the update
(`total_fires`, `current_time`, `active_count`). -/
structure FireUpdate where
  fires : List Rec
  timestamp : Nat
  speed : Speed
  stats_total : Nat
  stats_time : Option Nat
  stats_active : Nat
deriving DecidableEq, Repr

/-- The mutable fields of `FireDataConsumer`, plus the history of emitted
socket events.  `active_fires` is initialised empty and never written
anywhere in the source, so `active_count` is recomputed from it as its
(always zero) length. -/
structure CState where
  active_fires : List Nat
  total_fires : Nat
  current_time : Option Nat
  active_count : Nat
  published : List FireUpdate
  ended_signals : Nat
deriving DecidableEq, Repr

/-- `FireDataConsumer.__init__`. -/
def mkConsumer : CState :=
  { active_fires := [], total_fires := 0, current_time := none,
    active_count := 0, published := [], ended_signals := 0 }

/-- `FireDataConsumer.emit_fire_update`: only when the batch carries records
does it update the running statistics and emit exactly one consolidated
`'fire_update'`; an empty batch falls through the `if records:` guard
untouched. -/
def emit_fire_update (c : CState) (b : Batch) : CState :=
  if b.records = [] then c
  else
    let total_fires := c.total_fires + b.records.length
    let active_count := c.active_fires.length
    { c with
      total_fires := total_fires,
      current_time := some b.timestamp,
      active_count := active_count,
      published := c.published ++
        [{ fires := b.records, timestamp := b.timestamp, speed := b.speed,
           stats_total := total_fires, stats_time := some b.timestamp,
           stats_active := active_count }] }

/-- `FireDataConsumer.run_consumer` over the FIFO channel contents: process
batches in order; on the `end_of_data` sentinel emit `'playback_ended'` and
break out of the loop (items after the sentinel are not consumed). -/
def run_consumer (c : CState) : List QItem → CState
  | [] => c
  | .end_of_data :: _ => { c with ended_signals := c.ended_signals + 1 }
  | .fire_batch b :: rest => run_consumer (emit_fire_update c b) rest

/-! ## Application-level handlers (src/app.py lines 350-519) -/

inductive SEvent where
  | playback_started (start_date end_date : Nat) (speed : String)
  | playback_error
  | speed_changed (speed : String)
deriving DecidableEq, Repr

/-- Module-level application state: the producer singleton, the
`data_queue` capacity, and the socket events emitted so far. -/
structure AppState where
  producer : PState
  queueMaxsize : Nat
  events : List SEvent
deriving Repr

/-- Module initialisation (src/app.py lines 362-365):
`data_queue = Queue(maxsize=config.get_queue_size(config.DEFAULT_SPEED))`. -/
def initialApp : AppState :=
  { producer := mkProducer,
    queueMaxsize := get_queue_size DEFAULT_SPEED,
    events := [] }

/-- `handle_start_playback` (src/app.py lines 421-455) with valid date
inputs: unconditionally reconfigures the producer singleton
(`set_date_range` resets start/end/cursor, `set_speed` applies a valid key,
`is_paused` is cleared), compares the desired queue size but only logs a
mismatch (the queue is never reallocated), starts the threads if none is
alive, and acknowledges with `'playback_started'`.  No conflict check is
performed for an already-active session. -/
def handle_start_playback (a : AppState) (start_date end_date : Nat)
    (speed : String) : AppState :=
  let p := a.producer
  let p := { p with start_date := some start_date, end_date := some end_date,
                    cursor := some start_date }
  let p := match parseSpeed speed with
           | some sp => { p with speed := sp }
           | none => p
  let p := { p with paused := false }
  let p := if p.running then p else { p with running := true }
  { a with producer := p,
           events := a.events ++ [.playback_started start_date end_date speed] }

/-- `handle_change_speed` (src/app.py lines 504-519): a catalog key updates
`current_speed` and acknowledges; an unknown key is rejected with
`'playback_error'` and leaves all state unchanged. -/
def handle_change_speed (a : AppState) (k : String) : AppState :=
  match parseSpeed k with
  | some sp =>
      { a with producer := { a.producer with speed := sp },
               events := a.events ++ [.speed_changed k] }
  | none => { a with events := a.events ++ [.playback_error] }

/-! ## Derived observations on the channel history -/

/-- The fire batches of a channel history, in order. -/
def batchesOf : List QItem → List Batch
  | [] => []
  | .fire_batch b :: r => b :: batchesOf r
  | .end_of_data :: r => batchesOf r

/-- Number of `end_of_data` sentinels in a channel history. -/
def sentinels : List QItem → Nat
  | [] => 0
  | .fire_batch _ :: r => sentinels r
  | .end_of_data :: r => sentinels r + 1

/-- Total number of records across a batch list. -/
def batchSum : List Batch → Nat
  | [] => 0
  | b :: r => b.records.length + batchSum r

/-- `windowChain a bs`: each batch's records lie in the half-open window from
the previous batch's `window_end` (initially `a`) up to its own
`window_end`, and the `window_end` values are non-decreasing. -/
def windowChain (a : Nat) : List Batch → Bool
  | [] => true
  | b :: r =>
      decide (a ≤ b.timestamp) &&
      b.records.all (fun x => decide (a < x.datetime_utc) &&
                              decide (x.datetime_utc ≤ b.timestamp)) &&
      windowChain b.timestamp r

/-- The `window_end` of the last batch, or `a` when no batch was emitted. -/
def lastEnd (a : Nat) : List Batch → Nat
  | [] => a
  | b :: r => lastEnd b.timestamp r

/-- Batches of a channel history before the first sentinel (what the
consumer loop actually processes). -/
def batchesBeforeEod : List QItem → List Batch
  | [] => []
  | .end_of_data :: _ => []
  | .fire_batch b :: r => b :: batchesBeforeEod r

/-- Partial sums, used to state that the published statistics totals are the
running cumulative record counts. -/
def cumSums (acc : Nat) : List Nat → List Nat
  | [] => []
  | x :: r => (acc + x) :: cumSums (acc + x) r

/-- The `'fire_update'` events the consumer emits for a batch list, given the
(constant) length of `active_fires` and the running `total_fires`
accumulator.  Derived observation used to characterise `run_consumer`. -/
def expectedUpdates (ac tf : Nat) : List Batch → List FireUpdate
  | [] => []
  | b :: r =>
      if b.records = [] then expectedUpdates ac tf r
      else
        { fires := b.records, timestamp := b.timestamp, speed := b.speed,
          stats_total := tf + b.records.length, stats_time := some b.timestamp,
          stats_active := ac } :: expectedUpdates ac (tf + b.records.length) r

/-! ## Concrete stores used in the counterexample and witness theorems -/

/-- A fault-free store whose only record sits 50 simulated days into the
range — deeper than the 30-day lookahead probe. -/
def dbGap : DB := ⟨[⟨1, 4320000⟩], fun _ _ => false⟩

/-- A fault-free store with one record inside the final tick window of the
range `[0, 7200]`. -/
def dbLate : DB := ⟨[⟨1, 3600⟩], fun _ _ => false⟩

/-- A fault-free store with a single record at timestamp exactly 0 (the
range start used with it). -/
def dbAtStart : DB := ⟨[⟨1, 0⟩], fun _ _ => false⟩

/-- A fault-free empty store. -/
def dbEmpty : DB := ⟨[], fun _ _ => false⟩

/-- A fault-free store with one record one hour into the range. -/
def dbOne : DB := ⟨[⟨1, 3600⟩], fun _ _ => false⟩

/-- A store with two records that reports a storage fault exactly for
queries starting at 5. -/
def dbFaulty : DB := ⟨[⟨1, 10⟩, ⟨2, 5⟩], fun s _ => decide (s = 5)⟩

/-- An application state with a session in flight: the producer thread is
running, the cursor has advanced to 7200 into the range `[0, 172800]`. -/
def runningApp : AppState :=
  { producer :=
      { mkProducer with
        start_date := some 0, end_date := some 172800, cursor := some 7200,
        speed := .slowest, running := true, paused := false, processed := 3 },
    queueMaxsize := 100, events := [] }

/-! # Lemmas -/

/-! ## The Event Store Reader (`query_interval`) -/

theorem query_interval_of_fails (db : DB) (sp : Speed) (s e : Nat)
    (h : db.fails s e = true) : query_interval db sp s e = [] := by
  simp [query_interval, rawQuery, h]

theorem query_interval_of_ok (db : DB) (sp : Speed) (s e : Nat)
    (h : db.fails s e = false) :
    query_interval db sp s e =
      (List.insertionSort rowLe (db.rows.filter (inInterval s e))).map (toRec sp) := by
  simp [query_interval, rawQuery, h]

theorem mem_query_interval {db : DB} {sp : Speed} {s e : Nat} {x : Rec}
    (hx : x ∈ query_interval db sp s e) :
    s < x.datetime_utc ∧ x.datetime_utc ≤ e := by
  by_cases h : db.fails s e
  · rw [query_interval_of_fails db sp s e h] at hx
    simp at hx
  · rw [query_interval_of_ok db sp s e (by simpa using h)] at hx
    obtain ⟨r, hr, hxr⟩ := List.mem_map.mp hx
    have hr' : r ∈ db.rows.filter (inInterval s e) :=
      (List.perm_insertionSort rowLe _).mem_iff.mp hr
    have hint : inInterval s e r = true := List.of_mem_filter hr'
    simp only [inInterval, Bool.and_eq_true, decide_eq_true_eq] at hint
    constructor
    · simpa [← hxr, toRec] using hint.1
    · simpa [← hxr, toRec] using hint.2

/-- A query over the empty window `(a, a]` returns nothing, in the fault
case as well as in the success case. -/
theorem query_interval_self (db : DB) (sp : Speed) (a : Nat) :
    query_interval db sp a a = [] := by
  rw [List.eq_nil_iff_forall_not_mem]
  intro x hx
  have := mem_query_interval hx
  omega

theorem length_query_interval (db : DB) (sp : Speed) (s e : Nat)
    (h : db.fails s e = false) :
    (query_interval db sp s e).length = countInterval db s e := by
  rw [query_interval_of_ok db sp s e h, List.length_map,
    (List.perm_insertionSort rowLe _).length_eq, countInterval,
    List.countP_eq_length_filter]

theorem query_interval_sorted (db : DB) (sp : Speed) (s e : Nat) :
    List.Pairwise (fun x y : Rec => x.datetime_utc ≤ y.datetime_utc)
      (query_interval db sp s e) := by
  by_cases h : db.fails s e
  · rw [query_interval_of_fails db sp s e h]
    exact List.Pairwise.nil
  · rw [query_interval_of_ok db sp s e (by simpa using h)]
    rw [List.pairwise_map]
    exact (List.sorted_insertionSort rowLe _).imp (fun hab => hab)

theorem query_interval_perm (db : DB) (sp : Speed) (s e : Nat)
    (h : db.fails s e = false) :
    (query_interval db sp s e).Perm
      ((db.rows.filter (inInterval s e)).map (toRec sp)) := by
  rw [query_interval_of_ok db sp s e h]
  exact (List.perm_insertionSort rowLe _).map (toRec sp)

/-! ## Interval counting -/

theorem countInterval_self (db : DB) (a : Nat) : countInterval db a a = 0 := by
  rw [countInterval, List.countP_eq_zero]
  intro r _
  simp only [inInterval, Bool.and_eq_true, decide_eq_true_eq, not_and]
  omega

theorem inInterval_split_point {a b c : Nat} (hab : a ≤ b) (hbc : b ≤ c) (r : Row) :
    (if inInterval a c r then (1 : Nat) else 0) =
      (if inInterval a b r then (1 : Nat) else 0) +
      (if inInterval b c r then (1 : Nat) else 0) := by
  simp only [inInterval, Bool.and_eq_true, decide_eq_true_eq]
  split_ifs <;> omega

theorem countInterval_split (db : DB) {a b c : Nat} (hab : a ≤ b) (hbc : b ≤ c) :
    countInterval db a c = countInterval db a b + countInterval db b c := by
  unfold countInterval
  induction db.rows with
  | nil => rfl
  | cons r l ih =>
      simp only [List.countP_cons, ih, inInterval_split_point hab hbc r]
      omega

/-! ## Channel-history helpers -/

theorem batchesOf_append_batch (q : List QItem) (b : Batch) :
    batchesOf (q ++ [.fire_batch b]) = batchesOf q ++ [b] := by
  induction q with
  | nil => rfl
  | cons i r ih => cases i <;> simp [batchesOf, ih]

theorem batchesOf_append_eod (q : List QItem) :
    batchesOf (q ++ [.end_of_data]) = batchesOf q := by
  induction q with
  | nil => rfl
  | cons i r ih => cases i <;> simp [batchesOf, ih]

theorem sentinels_append_batch (q : List QItem) (b : Batch) :
    sentinels (q ++ [.fire_batch b]) = sentinels q := by
  induction q with
  | nil => rfl
  | cons i r ih => cases i <;> simp [sentinels, ih]

theorem sentinels_append_eod (q : List QItem) :
    sentinels (q ++ [.end_of_data]) = sentinels q + 1 := by
  induction q with
  | nil => rfl
  | cons i r ih => cases i <;> simp [sentinels, ih]

theorem batchesBeforeEod_map_append (bs : List Batch) (r : List QItem) :
    batchesBeforeEod (bs.map QItem.fire_batch ++ r) = bs ++ batchesBeforeEod r := by
  induction bs with
  | nil => rfl
  | cons b t ih => simp [batchesBeforeEod, ih]

theorem batchSum_append (bs : List Batch) (b : Batch) :
    batchSum (bs ++ [b]) = batchSum bs + b.records.length := by
  induction bs with
  | nil => simp [batchSum]
  | cons x t ih => simp [batchSum, ih]; omega

theorem lastEnd_append (a : Nat) (bs : List Batch) (b : Batch) :
    lastEnd a (bs ++ [b]) = b.timestamp := by
  induction bs generalizing a with
  | nil => rfl
  | cons x t ih => simpa [lastEnd] using ih x.timestamp

/-! ## Window-chain lemmas -/

theorem windowChain_append (a : Nat) (bs : List Batch) (b : Batch) :
    windowChain a (bs ++ [b]) = true ↔
      (windowChain a bs = true ∧ lastEnd a bs ≤ b.timestamp ∧
        ∀ x ∈ b.records,
          lastEnd a bs < x.datetime_utc ∧ x.datetime_utc ≤ b.timestamp) := by
  induction bs generalizing a with
  | nil =>
      simp [windowChain, lastEnd, List.all_eq_true]
  | cons x t ih =>
      simp only [List.cons_append, windowChain, Bool.and_eq_true, lastEnd,
        List.append_eq]
      rw [ih x.timestamp]
      tauto

theorem windowChain_le_lastEnd {a : Nat} {bs : List Batch}
    (h : windowChain a bs = true) : a ≤ lastEnd a bs := by
  induction bs generalizing a with
  | nil => exact Nat.le_refl a
  | cons b t ih =>
      simp only [windowChain, Bool.and_eq_true, decide_eq_true_eq] at h
      exact Nat.le_trans h.1.1 (ih h.2)

theorem windowChain_head_le {a : Nat} {bs : List Batch}
    (h : windowChain a bs = true) : ∀ b ∈ bs, a ≤ b.timestamp := by
  induction bs generalizing a with
  | nil => intro b hb; simp at hb
  | cons x t ih =>
      simp only [windowChain, Bool.and_eq_true, decide_eq_true_eq] at h
      intro b hb
      rcases List.mem_cons.mp hb with hb | hb
      · exact hb ▸ h.1.1
      · exact Nat.le_trans h.1.1 (ih h.2 b hb)

theorem windowChain_pairwise {a : Nat} {bs : List Batch}
    (h : windowChain a bs = true) :
    List.Pairwise (fun x y : Batch => x.timestamp ≤ y.timestamp) bs := by
  induction bs generalizing a with
  | nil => exact List.Pairwise.nil
  | cons x t ih =>
      simp only [windowChain, Bool.and_eq_true, decide_eq_true_eq] at h
      exact List.Pairwise.cons (fun y hy => windowChain_head_le h.2 y hy) (ih h.2)

theorem windowChain_records_gt {a : Nat} {bs : List Batch}
    (h : windowChain a bs = true) :
    ∀ b ∈ bs, ∀ x ∈ b.records, a < x.datetime_utc := by
  induction bs generalizing a with
  | nil => intro b hb; simp at hb
  | cons y t ih =>
      simp only [windowChain, Bool.and_eq_true, decide_eq_true_eq,
        List.all_eq_true] at h
      intro b hb x hx
      rcases List.mem_cons.mp hb with hb | hb
      · have := h.1.2 x (hb ▸ hx)
        simp only [Bool.and_eq_true, decide_eq_true_eq] at this
        exact this.1
      · exact Nat.lt_of_le_of_lt h.1.1 (ih h.2 b hb x hx)

/-! ## The session invariant -/

/-- Invariant of every state reachable in a session over `[a, b]`:
the range is stored; the cursor equals the `window_end` of the last emitted
batch (initially `a`); while the loop runs the `is_running` flag is set; the
channel history is the emitted batches followed by the sentinel exactly when
the loop has been exited; the batches form a contiguous window chain from
`a` bounded by `b`; `processed_records` equals the total emitted record
count, which on a fault-free store equals the store count over
`(a, cursor]`. -/
structure Inv (db : DB) (a b : Nat) (s : PState) : Prop where
  sd : s.start_date = some a
  ed : s.end_date = some b
  cur : s.cursor = some (lastEnd a (batchesOf s.queue))
  runFlag : s.ended = false → s.running = true
  shape : s.queue = (batchesOf s.queue).map QItem.fire_batch ++
      (if s.ended then [QItem.end_of_data] else [])
  chain : windowChain a (batchesOf s.queue) = true
  cbound : a ≤ b → lastEnd a (batchesOf s.queue) ≤ b
  proc : s.processed = batchSum (batchesOf s.queue)
  cnt : faultFree db → s.processed = countInterval db a (lastEnd a (batchesOf s.queue))

theorem inv_sessionInit (db : DB) (a b : Nat) (sp : Speed) :
    Inv db a b (sessionInit db a b sp) := by
  refine ⟨rfl, rfl, rfl, fun _ => rfl, rfl, rfl, fun h => h, rfl, fun _ => ?_⟩
  exact (countInterval_self db a).symm

theorem inv_exitLoop {db : DB} {a b : Nat} {s : PState}
    (h : Inv db a b s) (hne : s.ended = false) : Inv db a b (exitLoop s) := by
  have hb := batchesOf_append_eod s.queue
  refine ⟨h.sd, h.ed, ?_, ?_, ?_, ?_, ?_, ?_, ?_⟩
  · simpa [exitLoop, hb] using h.cur
  · intro hc; simp [exitLoop] at hc
  · have hs := h.shape
    simp only [hne, Bool.false_eq_true, if_false, List.append_nil] at hs
    show s.queue ++ [QItem.end_of_data] =
      (batchesOf (s.queue ++ [QItem.end_of_data])).map QItem.fire_batch ++
        (if true then [QItem.end_of_data] else [])
    rw [batchesOf_append_eod, if_pos rfl]
    conv_lhs => rw [hs]
  · simpa [exitLoop, hb] using h.chain
  · simpa [exitLoop, hb] using h.cbound
  · simpa [exitLoop, hb] using h.proc
  · simpa [exitLoop, hb] using h.cnt

/-- Preservation of the invariant by the push-and-advance arm of the tick
body. -/
theorem inv_tickPushed {db : DB} {a b : Nat} {s : PState} {c next : Nat}
    (h : Inv db a b s) (hne : s.ended = false)
    (hc : s.cursor = some c) (hcn : c ≤ next) (hnb : next ≤ b)
    (records : List Rec)
    (hrec : ∀ x ∈ records, c < x.datetime_utc ∧ x.datetime_utc ≤ next)
    (hlen : faultFree db → records.length = countInterval db c next) :
    Inv db a b
      { s with queue := s.queue ++ [.fire_batch ⟨records, next, s.speed⟩],
               processed := if records = [] then s.processed
                            else s.processed + records.length,
               cursor := some next } := by
  have hceq : c = lastEnd a (batchesOf s.queue) := by
    have := h.cur; rw [hc] at this; exact Option.some.inj this
  have hb := batchesOf_append_batch s.queue ⟨records, next, s.speed⟩
  have hlast : lastEnd a (batchesOf s.queue ++ [⟨records, next, s.speed⟩]) = next :=
    lastEnd_append a _ _
  refine ⟨h.sd, h.ed, ?_, ?_, ?_, ?_, ?_, ?_, ?_⟩
  · simp only [hb, hlast]
  · intro _; exact h.runFlag hne
  · have hs := h.shape
    simp only [hne, Bool.false_eq_true, if_false, List.append_nil] at hs
    show s.queue ++ [QItem.fire_batch ⟨records, next, s.speed⟩] =
      (batchesOf (s.queue ++ [QItem.fire_batch ⟨records, next, s.speed⟩])).map
        QItem.fire_batch ++ (if s.ended then [QItem.end_of_data] else [])
    simp only [hne, Bool.false_eq_true, if_false, List.append_nil, hb,
      List.map_append]
    conv_lhs => rw [hs]
    rfl
  · simp only [hb]
    rw [windowChain_append]
    exact ⟨h.chain, hceq ▸ hcn, fun x hx => hceq ▸ hrec x hx⟩
  · intro _; simp only [hb, hlast]; exact hnb
  · simp only [hb, batchSum_append, ← h.proc]
    by_cases hr : records = []
    · simp [hr]
    · simp [hr]
  · intro hff
    simp only [hb, hlast]
    have hstep : countInterval db a next =
        countInterval db a c + countInterval db c next := by
      refine countInterval_split db ?_ hcn
      calc a ≤ lastEnd a (batchesOf s.queue) := windowChain_le_lastEnd h.chain
        _ = c := hceq.symm
    have hpc : s.processed = countInterval db a c := by
      rw [hceq]; exact h.cnt hff
    rw [hstep, ← hlen hff, ← hpc]
    by_cases hr : records = []
    · simp [hr]
    · simp [hr]

/-- Preservation of the invariant by the tick body. -/
theorem inv_tickBody {db : DB} {a b : Nat} {s : PState} {c : Nat}
    (h : Inv db a b s) (hne : s.ended = false)
    (hc : s.cursor = some c) (hcb : c ≤ b) :
    Inv db a b (tickBody db s c b) := by
  have hcn : c ≤ (if c + speedHours s.speed * 3600 > b then b
                  else c + speedHours s.speed * 3600) := by
    split_ifs <;> omega
  have hnb : (if c + speedHours s.speed * 3600 > b then b
              else c + speedHours s.speed * 3600) ≤ b := by
    split_ifs <;> omega
  simp only [tickBody]
  by_cases h1 : query_interval db s.speed c
      (if c + speedHours s.speed * 3600 > b then b
       else c + speedHours s.speed * 3600) = [] ∧ c < b
  · rw [if_pos h1]
    by_cases h2 : query_interval db s.speed c
        (if c + 2592000 > b then b else c + 2592000) = []
    · rw [if_pos h2]
      exact inv_exitLoop h hne
    · rw [if_neg h2]
      exact inv_tickPushed h hne hc hcn hnb _
        (fun x hx => mem_query_interval hx)
        (fun hff => length_query_interval db s.speed c _ (hff c _))
  · rw [if_neg h1]
    exact inv_tickPushed h hne hc hcn hnb _
      (fun x hx => mem_query_interval hx)
      (fun hff => length_query_interval db s.speed c _ (hff c _))

/-- Every interleaved event preserves the session invariant. -/
theorem inv_step {db : DB} {a b : Nat} {s : PState} (h : Inv db a b s) :
    ∀ c, Inv db a b (step db s c)
  | .pause => ⟨h.sd, h.ed, h.cur, h.runFlag, h.shape, h.chain, h.cbound, h.proc, h.cnt⟩
  | .resume => ⟨h.sd, h.ed, h.cur, h.runFlag, h.shape, h.chain, h.cbound, h.proc, h.cnt⟩
  | .set_speed k => by
      simp only [step]
      cases parseSpeed k with
      | none => exact h
      | some sp =>
          exact ⟨h.sd, h.ed, h.cur, h.runFlag, h.shape, h.chain, h.cbound,
            h.proc, h.cnt⟩
  | .poll => by
      by_cases hend : s.ended
      · simpa [step, hend] using h
      · have hne : s.ended = false := by simpa using hend
        simp only [step, hne, Bool.false_eq_true, if_false]
        rw [h.cur, h.ed]
        by_cases hrun : (s.running = true) ∧ lastEnd a (batchesOf s.queue) ≤ b
        · simpa [hrun] using h
        · simpa [hrun] using inv_exitLoop h hne
  | .tick => by
      by_cases hend : s.ended
      · simpa [step, hend] using h
      · have hne : s.ended = false := by simpa using hend
        simp only [step, hne, Bool.false_eq_true, if_false]
        rw [h.cur, h.ed]
        by_cases hrun : (s.running = true) ∧ lastEnd a (batchesOf s.queue) ≤ b
        · by_cases hp : s.paused
          · simpa [hrun, hp] using h
          · simpa [hrun, hp] using inv_tickBody h hne h.cur hrun.2
        · simpa [hrun] using inv_exitLoop h hne

theorem inv_foldl {db : DB} {a b : Nat} {s : PState}
    (h : Inv db a b s) (cmds : List Cmd) :
    Inv db a b (cmds.foldl (step db) s) := by
  induction cmds generalizing s with
  | nil => exact h
  | cons c r ih => exact ih (inv_step h c)

/-- Every state of a session run satisfies the invariant. -/
theorem inv_runP (db : DB) (a b : Nat) (sp : Speed) (cmds : List Cmd) :
    Inv db a b (runP db a b sp cmds) :=
  inv_foldl (inv_sessionInit db a b sp) cmds

/-! ## Consumer characterisation -/

theorem run_consumer_published (items : List QItem) (c : CState) :
    (run_consumer c items).published =
      c.published ++
        expectedUpdates c.active_fires.length c.total_fires
          (batchesBeforeEod items) := by
  induction items generalizing c with
  | nil => simp [run_consumer, batchesBeforeEod, expectedUpdates]
  | cons i r ih =>
      cases i with
      | end_of_data => simp [run_consumer, batchesBeforeEod, expectedUpdates]
      | fire_batch b =>
          simp only [run_consumer, batchesBeforeEod]
          rw [ih]
          by_cases hb : b.records = []
          · simp [emit_fire_update, hb, expectedUpdates]
          · simp [emit_fire_update, hb, expectedUpdates, List.append_assoc]

theorem run_consumer_total (items : List QItem) (c : CState) :
    (run_consumer c items).total_fires =
      c.total_fires + batchSum (batchesBeforeEod items) := by
  induction items generalizing c with
  | nil => simp [run_consumer, batchesBeforeEod, batchSum]
  | cons i r ih =>
      cases i with
      | end_of_data => simp [run_consumer, batchesBeforeEod, batchSum]
      | fire_batch b =>
          simp only [run_consumer, batchesBeforeEod, batchSum]
          rw [ih]
          by_cases hb : b.records = []
          · simp [emit_fire_update, hb]
          · simp [emit_fire_update, hb]; omega

theorem run_consumer_sentinel (items : List QItem) (c : CState) :
    (run_consumer c items).ended_signals =
      c.ended_signals + min (sentinels items) 1 := by
  induction items generalizing c with
  | nil => simp [run_consumer, sentinels]
  | cons i r ih =>
      cases i with
      | end_of_data => simp only [run_consumer, sentinels]; omega
      | fire_batch b =>
          simp only [run_consumer, sentinels]
          rw [ih]
          by_cases hb : b.records = [] <;> simp [emit_fire_update, hb]

theorem expectedUpdates_proj (ac tf : Nat) (bs : List Batch) :
    (expectedUpdates ac tf bs).map (fun u => (u.fires, u.timestamp, u.speed)) =
      (bs.filter (fun b => !decide (b.records = []))).map
        (fun b => (b.records, b.timestamp, b.speed)) := by
  induction bs generalizing tf with
  | nil => rfl
  | cons b r ih =>
      by_cases hb : b.records = []
      · simp [expectedUpdates, hb, List.filter, ih]
      · simp [expectedUpdates, hb, List.filter, ih]

theorem expectedUpdates_timestamp (ac tf : Nat) (bs : List Batch) :
    (expectedUpdates ac tf bs).map (fun u => u.timestamp) =
      (bs.filter (fun b => !decide (b.records = []))).map
        (fun b => b.timestamp) := by
  induction bs generalizing tf with
  | nil => rfl
  | cons b r ih =>
      by_cases hb : b.records = []
      · simp [expectedUpdates, hb, List.filter, ih]
      · simp [expectedUpdates, hb, List.filter, ih]

theorem expectedUpdates_total (ac tf : Nat) (bs : List Batch) :
    (expectedUpdates ac tf bs).map (fun u => u.stats_total) =
      cumSums tf ((bs.filter (fun b => !decide (b.records = []))).map
        (fun b => b.records.length)) := by
  induction bs generalizing tf with
  | nil => rfl
  | cons b r ih =>
      by_cases hb : b.records = []
      · simp [expectedUpdates, hb, List.filter, ih]
      · simp [expectedUpdates, hb, List.filter, ih, cumSums]

theorem expectedUpdates_time (ac tf : Nat) (bs : List Batch) :
    (expectedUpdates ac tf bs).map (fun u => u.stats_time) =
      (bs.filter (fun b => !decide (b.records = []))).map
        (fun b => some b.timestamp) := by
  induction bs generalizing tf with
  | nil => rfl
  | cons b r ih =>
      by_cases hb : b.records = []
      · simp [expectedUpdates, hb, List.filter, ih]
      · simp [expectedUpdates, hb, List.filter, ih]

theorem expectedUpdates_active (ac tf : Nat) (bs : List Batch) :
    (expectedUpdates ac tf bs).map (fun u => u.stats_active) =
      (bs.filter (fun b => !decide (b.records = []))).map (fun _ => ac) := by
  induction bs generalizing tf with
  | nil => rfl
  | cons b r ih =>
      by_cases hb : b.records = []
      · simp [expectedUpdates, hb, List.filter, ih]
      · simp [expectedUpdates, hb, List.filter, ih]

/-- The consumer of a reachable channel history processes exactly the
emitted batches (the sentinel, when present, is last). -/
theorem batchesBeforeEod_of_inv {db : DB} {a b : Nat} {s : PState}
    (h : Inv db a b s) : batchesBeforeEod s.queue = batchesOf s.queue := by
  conv_lhs => rw [h.shape]
  rw [batchesBeforeEod_map_append]
  by_cases he : s.ended
  · simp [he, batchesBeforeEod]
  · simp [he, batchesBeforeEod]

/-! ## Pause and resume -/

theorem tickBody_paused (db : DB) (s : PState) (c e : Nat) :
    (tickBody db s c e).paused = s.paused := by
  simp only [tickBody]
  split_ifs <;> rfl

theorem step_tick_paused (db : DB) (s : PState) :
    (step db s .tick).paused = s.paused := by
  simp only [step]
  by_cases hend : s.ended
  · simp [hend]
  · have hne : s.ended = false := by simpa using hend
    simp only [hne, Bool.false_eq_true, if_false]
    cases hc : s.cursor with
    | none => cases he : s.end_date <;> rfl
    | some c =>
        cases he : s.end_date with
        | none => rfl
        | some e =>
            show (if s.running = true ∧ c ≤ e then
                    if s.paused = true then s else tickBody db s c e
                  else exitLoop s).paused = s.paused
            by_cases hr : s.running = true ∧ c ≤ e
            · rw [if_pos hr]
              by_cases hp : s.paused = true
              · rw [if_pos hp]
              · rw [if_neg hp]
                exact tickBody_paused db s c e
            · rw [if_neg hr]
              rfl

theorem foldl_ticks_paused (db : DB) (n : Nat) (s : PState) :
    (List.foldl (step db) s (List.replicate n .tick)).paused = s.paused := by
  induction n generalizing s with
  | zero => rfl
  | succ m ih =>
      rw [List.replicate_succ, List.foldl_cons]
      rw [ih, step_tick_paused]

theorem tickBody_speed (db : DB) (s : PState) (c e : Nat) :
    (tickBody db s c e).speed = s.speed := by
  simp only [tickBody]
  split_ifs <;> rfl

theorem step_tick_speed (db : DB) (s : PState) :
    (step db s .tick).speed = s.speed := by
  simp only [step]
  by_cases hend : s.ended
  · simp [hend]
  · have hne : s.ended = false := by simpa using hend
    simp only [hne, Bool.false_eq_true, if_false]
    cases hc : s.cursor with
    | none => cases he : s.end_date <;> rfl
    | some c =>
        cases he : s.end_date with
        | none => rfl
        | some e =>
            show (if s.running = true ∧ c ≤ e then
                    if s.paused = true then s else tickBody db s c e
                  else exitLoop s).speed = s.speed
            by_cases hr : s.running = true ∧ c ≤ e
            · rw [if_pos hr]
              by_cases hp : s.paused = true
              · rw [if_pos hp]
              · rw [if_neg hp]
                exact tickBody_speed db s c e
            · rw [if_neg hr]
              rfl

theorem foldl_ticks_speed (db : DB) (n : Nat) (s : PState) :
    (List.foldl (step db) s (List.replicate n .tick)).speed = s.speed := by
  induction n generalizing s with
  | zero => rfl
  | succ m ih =>
      rw [List.replicate_succ, List.foldl_cons]
      rw [ih, step_tick_speed]

/-- While the `while` condition holds, an iteration that does not tick
leaves the producer state untouched. -/
theorem step_poll_id {db : DB} {a b : Nat} {s : PState}
    (h : Inv db a b s) (hab : a ≤ b) : step db s .poll = s := by
  by_cases hend : s.ended
  · simp [step, hend]
  · have hne : s.ended = false := by simpa using hend
    simp only [step, hne, Bool.false_eq_true, if_false]
    rw [h.cur, h.ed]
    show (if s.running = true ∧ lastEnd a (batchesOf s.queue) ≤ b then s
          else exitLoop s) = s
    rw [if_pos ⟨h.runFlag hne, h.cbound hab⟩]

/-- While paused, a tick iteration neither queries nor advances the cursor
nor pushes anything: the state is untouched. -/
theorem step_tick_paused_id {db : DB} {a b : Nat} {s : PState}
    (h : Inv db a b s) (hab : a ≤ b) (hp : s.paused = true) :
    step db s .tick = s := by
  by_cases hend : s.ended
  · simp [step, hend]
  · have hne : s.ended = false := by simpa using hend
    simp only [step, hne, Bool.false_eq_true, if_false]
    rw [h.cur, h.ed]
    show (if s.running = true ∧ lastEnd a (batchesOf s.queue) ≤ b then
            if s.paused = true then s
            else tickBody db s (lastEnd a (batchesOf s.queue)) b
          else exitLoop s) = s
    rw [if_pos ⟨h.runFlag hne, h.cbound hab⟩, if_pos hp]

/-- A whole stretch of loop iterations taken while paused is a no-op. -/
theorem foldl_paused_id {db : DB} {a b : Nat} {s : PState} {seg : List Cmd}
    (hseg : ∀ x ∈ seg, x = Cmd.tick ∨ x = Cmd.poll)
    (h : Inv db a b s) (hab : a ≤ b) (hp : s.paused = true) :
    List.foldl (step db) s seg = s := by
  induction seg with
  | nil => rfl
  | cons x r ih =>
      have hx := hseg x (List.mem_cons_self x r)
      have hstep : step db s x = s := by
        rcases hx with hx | hx
        · rw [hx]; exact step_tick_paused_id h hab hp
        · rw [hx]; exact step_poll_id h hab
      rw [List.foldl_cons, hstep]
      exact ih (fun y hy => hseg y (List.mem_cons_of_mem x hy))

theorem set_paused_false_eq {s : PState} (h : s.paused = false) :
    ({ s with paused := false } : PState) = s := by
  cases s
  simp_all

/-- Unfolding of an unpaused tick taken while the loop condition holds. -/
theorem step_tick_eq {db : DB} {s : PState} {c e : Nat}
    (hne : s.ended = false) (hrun : s.running = true) (hp : s.paused = false)
    (hc : s.cursor = some c) (he : s.end_date = some e) (hce : c ≤ e) :
    step db s .tick = tickBody db s c e := by
  simp only [step, hne, Bool.false_eq_true, if_false]
  rw [hc, he]
  show (if s.running = true ∧ c ≤ e then
          if s.paused = true then s else tickBody db s c e
        else exitLoop s) = tickBody db s c e
  rw [if_pos ⟨hrun, hce⟩, if_neg (by simp [hp])]

/-- A tick taken with the cursor already at the end of the range pushes an
empty batch and changes nothing else: the loop neither exits nor puts the
sentinel.  Stated for the concrete failing input of the end-of-range
scenario. -/
theorem tick_at_range_end (s : PState)
    (h1 : s.ended = false) (h2 : s.running = true) (h3 : s.cursor = some 7200)
    (h4 : s.end_date = some 7200) (h5 : s.paused = false)
    (h6 : s.speed = Speed.slowest) (h7 : sentinels s.queue = 0) :
    (step dbLate s .tick).ended = false ∧
    (step dbLate s .tick).running = true ∧
    (step dbLate s .tick).cursor = some 7200 ∧
    (step dbLate s .tick).end_date = some 7200 ∧
    (step dbLate s .tick).paused = false ∧
    (step dbLate s .tick).speed = Speed.slowest ∧
    sentinels (step dbLate s .tick).queue = 0 := by
  rw [step_tick_eq h1 h2 h5 h3 h4 (Nat.le_refl 7200)]
  simp only [tickBody, h6]
  have hnx : (if 7200 + speedHours Speed.slowest * 3600 > 7200 then 7200
              else 7200 + speedHours Speed.slowest * 3600) = 7200 := by decide
  rw [hnx, query_interval_self dbLate Speed.slowest 7200]
  rw [if_neg (by simp)]
  refine ⟨h1, h2, rfl, h4, h5, rfl, ?_⟩
  simpa [sentinels_append_batch] using h7

/-! # Claims -/

/-- Claim C1, counterexample.  A fault-free store whose only record lies 50
simulated days into the range: the very first tick finds an empty window,
the 30-day lookahead probe is also empty, and the session runs to natural
completion (loop exited, exactly one sentinel) having emitted 0 records in
total — while the store holds 1 record with `range_start < t ≤ range_end`.
The completeness equality of the claim fails as stated. -/
theorem C1_counterexample :
    faultFree dbGap ∧
    (runP dbGap 0 8640000 .slowest [.tick]).ended = true ∧
    sentinels (runP dbGap 0 8640000 .slowest [.tick]).queue = 1 ∧
    batchSum (batchesOf (runP dbGap 0 8640000 .slowest [.tick]).queue) = 0 ∧
    (runP dbGap 0 8640000 .slowest [.tick]).processed = 0 ∧
    countInterval dbGap 0 8640000 = 1 ∧
    batchSum (batchesOf (runP dbGap 0 8640000 .slowest [.tick]).queue) ≠
      countInterval dbGap 0 8640000 :=
  ⟨fun _ _ => rfl, by decide, by decide, by decide, by decide, by decide,
    by decide⟩

/-- Claim C1, amended: in every reachable state of a fault-free session —
in particular at natural completion — the sum of the record counts of all
batches pushed to the channel equals the number of store records with
`range_start < t ≤ cursor`, where `cursor` is the current (at completion:
final) simulated cursor, and equals `processed_records`.  The spec's
equality over the full range `(range_start, range_end]` holds exactly when
no store record lies beyond the final cursor; it fails when a gap longer
than the 30-day lookahead probe hides later records. -/
theorem C1_completeness (db : DB) (a b : Nat) (sp : Speed) (cmds : List Cmd)
    (hff : faultFree db) :
    (runP db a b sp cmds).processed =
      batchSum (batchesOf (runP db a b sp cmds).queue) ∧
    (runP db a b sp cmds).cursor =
      some (lastEnd a (batchesOf (runP db a b sp cmds).queue)) ∧
    batchSum (batchesOf (runP db a b sp cmds).queue) =
      countInterval db a (lastEnd a (batchesOf (runP db a b sp cmds).queue)) := by
  have h := inv_runP db a b sp cmds
  refine ⟨h.proc, h.cur, ?_⟩
  rw [← h.proc]
  exact h.cnt hff

/-- Witness for C1: a fault-free one-record store whose record is emitted by
the single tick; both sides of the completeness equality are 1. -/
theorem C1_completeness_witness :
    faultFree dbOne ∧
    ((runP dbOne 0 86400 .slow [.tick]).processed =
        batchSum (batchesOf (runP dbOne 0 86400 .slow [.tick]).queue) ∧
      (runP dbOne 0 86400 .slow [.tick]).cursor =
        some (lastEnd 0 (batchesOf (runP dbOne 0 86400 .slow [.tick]).queue)) ∧
      batchSum (batchesOf (runP dbOne 0 86400 .slow [.tick]).queue) =
        countInterval dbOne 0
          (lastEnd 0 (batchesOf (runP dbOne 0 86400 .slow [.tick]).queue))) ∧
    (runP dbOne 0 86400 .slow [.tick]).processed = 1 :=
  ⟨fun _ _ => rfl, C1_completeness dbOne 0 86400 .slow [.tick] (fun _ _ => rfl),
    by decide⟩

/-- Claim C2, confirmed.  For every session run (any interleaving of ticks,
polls, pause/resume and speed changes): the emitted batches form a
contiguous window chain from `range_start` — every record of a batch has
`previous_window_end < t ≤ window_end` and the `window_end` values are
non-decreasing — and the Dispatcher, which drains the same FIFO history,
publishes exactly the non-empty batches in that order, so its published
timestamps are non-decreasing as well. -/
theorem C2_ordering (db : DB) (a b : Nat) (sp : Speed) (cmds : List Cmd) :
    windowChain a (batchesOf (runP db a b sp cmds).queue) = true ∧
    List.Pairwise (fun x y : Batch => x.timestamp ≤ y.timestamp)
      (batchesOf (runP db a b sp cmds).queue) ∧
    (run_consumer mkConsumer (runP db a b sp cmds).queue).published.map
        (fun u => (u.fires, u.timestamp, u.speed)) =
      ((batchesOf (runP db a b sp cmds).queue).filter
          (fun bt => !decide (bt.records = []))).map
        (fun bt => (bt.records, bt.timestamp, bt.speed)) ∧
    List.Pairwise (fun x y : Nat => x ≤ y)
      ((run_consumer mkConsumer (runP db a b sp cmds).queue).published.map
        (fun u => u.timestamp)) := by
  have h := inv_runP db a b sp cmds
  have hpw := windowChain_pairwise h.chain
  have hpub := run_consumer_published (runP db a b sp cmds).queue mkConsumer
  rw [batchesBeforeEod_of_inv h] at hpub
  refine ⟨h.chain, hpw, ?_, ?_⟩
  · rw [hpub]
    simpa [mkConsumer] using
      expectedUpdates_proj 0 0 (batchesOf (runP db a b sp cmds).queue)
  · rw [hpub]
    simp only [mkConsumer, List.nil_append, List.length_nil]
    rw [expectedUpdates_timestamp]
    exact List.pairwise_map.mpr (hpw.filter _)

/-- Claim C3, counterexample.  On a fault-free empty store with
`range = [0, 86400]` and tier `slow`, the first tick computes
`next_cursor = 86400` and queries `(0, 86400]`, but — the window and the
lookahead probe being empty — terminates the session with the cursor still
at 0: it does not advance the cursor to `next_cursor`. -/
theorem C3_counterexample :
    (step dbEmpty (sessionInit dbEmpty 0 86400 .slow) .tick).ended = true ∧
    (step dbEmpty (sessionInit dbEmpty 0 86400 .slow) .tick).cursor = some 0 ∧
    min (0 + speedHours Speed.slow * 3600) 86400 = 86400 ∧
    (step dbEmpty (sessionInit dbEmpty 0 86400 .slow) .tick).cursor ≠
      some 86400 := by
  refine ⟨by decide, by decide, by decide, by decide⟩

/-- Claim C3, amended.  On each tick taken while running and not paused
(with the loop condition `cursor ≤ range_end` holding), the Scheduler
computes `next_cursor = min(cursor + hours_per_tick · 3600, range_end)` from
the active tier and queries the store over `(cursor, next_cursor]`; then it
either pushes that window's batch and advances the cursor to `next_cursor`,
or — when the window and the 30-day lookahead probe are both empty —
terminates the session with the cursor unchanged and pushes the sentinel
instead of the batch.  In both cases the cursor is non-decreasing and never
exceeds `range_end`. -/
theorem C3_tick_behavior (db : DB) (s : PState) (c e : Nat)
    (hne : s.ended = false) (hrun : s.running = true) (hp : s.paused = false)
    (hc : s.cursor = some c) (he : s.end_date = some e) (hce : c ≤ e) :
    (((step db s .tick).cursor =
        some (min (c + speedHours s.speed * 3600) e) ∧
      (step db s .tick).queue = s.queue ++
        [.fire_batch
          ⟨query_interval db s.speed c (min (c + speedHours s.speed * 3600) e),
            min (c + speedHours s.speed * 3600) e, s.speed⟩] ∧
      (step db s .tick).ended = false) ∨
     ((step db s .tick).cursor = some c ∧ (step db s .tick).ended = true ∧
      (step db s .tick).queue = s.queue ++ [.end_of_data] ∧
      query_interval db s.speed c (min (c + speedHours s.speed * 3600) e) = [])) ∧
    (∃ c', (step db s .tick).cursor = some c' ∧ c ≤ c' ∧ c' ≤ e) := by
  have hmin : (if c + speedHours s.speed * 3600 > e then e
               else c + speedHours s.speed * 3600) =
      min (c + speedHours s.speed * 3600) e := by
    rw [Nat.min_def]
    split_ifs <;> omega
  rw [step_tick_eq hne hrun hp hc he hce]
  simp only [tickBody, hmin]
  by_cases h1 : query_interval db s.speed c
      (min (c + speedHours s.speed * 3600) e) = [] ∧ c < e
  · rw [if_pos h1]
    by_cases h2 : query_interval db s.speed c
        (if c + 2592000 > e then e else c + 2592000) = []
    · rw [if_pos h2]
      exact ⟨Or.inr ⟨hc, rfl, rfl, h1.1⟩, c, hc, Nat.le_refl c, hce⟩
    · rw [if_neg h2]
      refine ⟨Or.inl ⟨rfl, rfl, hne⟩, min (c + speedHours s.speed * 3600) e,
        rfl, ?_, ?_⟩ <;> omega
  · rw [if_neg h1]
    refine ⟨Or.inl ⟨rfl, rfl, hne⟩, min (c + speedHours s.speed * 3600) e,
      rfl, ?_, ?_⟩ <;> omega

/-- Witness for C3: on `dbOne` from the initial state of a `slow` session
over `[0, 86400]`, the tick hypotheses hold and the tick behaves as the
amended claim states (here through the push-and-advance arm). -/
theorem C3_tick_behavior_witness :
    ((sessionInit dbOne 0 86400 .slow).ended = false ∧
      (sessionInit dbOne 0 86400 .slow).cursor = some 0 ∧ 0 ≤ 86400) ∧
    ((((step dbOne (sessionInit dbOne 0 86400 .slow) .tick).cursor =
        some (min (0 + speedHours (sessionInit dbOne 0 86400 .slow).speed * 3600)
          86400) ∧
      (step dbOne (sessionInit dbOne 0 86400 .slow) .tick).queue =
        (sessionInit dbOne 0 86400 .slow).queue ++
        [.fire_batch
          ⟨query_interval dbOne (sessionInit dbOne 0 86400 .slow).speed 0
              (min (0 + speedHours (sessionInit dbOne 0 86400 .slow).speed * 3600)
                86400),
            min (0 + speedHours (sessionInit dbOne 0 86400 .slow).speed * 3600)
              86400,
            (sessionInit dbOne 0 86400 .slow).speed⟩] ∧
      (step dbOne (sessionInit dbOne 0 86400 .slow) .tick).ended = false) ∨
     ((step dbOne (sessionInit dbOne 0 86400 .slow) .tick).cursor = some 0 ∧
      (step dbOne (sessionInit dbOne 0 86400 .slow) .tick).ended = true ∧
      (step dbOne (sessionInit dbOne 0 86400 .slow) .tick).queue =
        (sessionInit dbOne 0 86400 .slow).queue ++ [.end_of_data] ∧
      query_interval dbOne (sessionInit dbOne 0 86400 .slow).speed 0
        (min (0 + speedHours (sessionInit dbOne 0 86400 .slow).speed * 3600)
          86400) = [])) ∧
    (∃ c', (step dbOne (sessionInit dbOne 0 86400 .slow) .tick).cursor =
        some c' ∧ 0 ≤ c' ∧ c' ≤ 86400)) :=
  ⟨⟨rfl, rfl, by omega⟩,
    C3_tick_behavior dbOne (sessionInit dbOne 0 86400 .slow) 0 86400
      rfl rfl rfl rfl rfl (by omega)⟩

/-- Claim C4, code bug.  The claim (and §4.2 of the spec) requires that on
reaching `cursor == range_end` the session terminates and pushes the
end-of-data sentinel.  The code never does: with `dbLate` (one record at
3600 s) over `[0, 7200]` at tier `slowest`, the first tick emits the record
and clamps the cursor to `range_end = 7200`; every further tick then finds
`cursor = range_end`, so the loop condition `cursor <= range_end` still
holds, the empty-window break is skipped (it requires `cursor < range_end`),
and an empty batch is pushed — forever.  After any number of ticks the loop
has not exited, `is_running` is still set, and no sentinel was ever put on
the channel. -/
theorem C4_no_termination_at_range_end (n : Nat) :
    (runP dbLate 0 7200 .slowest (List.replicate (n + 1) .tick)).ended = false ∧
    (runP dbLate 0 7200 .slowest (List.replicate (n + 1) .tick)).running = true ∧
    (runP dbLate 0 7200 .slowest (List.replicate (n + 1) .tick)).cursor =
      some 7200 ∧
    sentinels (runP dbLate 0 7200 .slowest (List.replicate (n + 1) .tick)).queue
      = 0 := by
  induction n with
  | zero =>
      refine ⟨by decide, by decide, by decide, by decide⟩
  | succ m ih =>
      have hrw : runP dbLate 0 7200 .slowest (List.replicate (m + 1 + 1) .tick) =
          step dbLate (runP dbLate 0 7200 .slowest (List.replicate (m + 1) .tick))
            .tick := by
        unfold runP
        rw [List.replicate_add (m + 1) 1, List.foldl_append]
        rfl
      obtain ⟨i1, i2, i3, i4⟩ := ih
      have hinv := inv_runP dbLate 0 7200 .slowest (List.replicate (m + 1) .tick)
      have i5 : (runP dbLate 0 7200 .slowest (List.replicate (m + 1) .tick)).end_date
          = some 7200 := hinv.ed
      have i6 : (runP dbLate 0 7200 .slowest (List.replicate (m + 1) .tick)).paused
          = false := by
        unfold runP
        exact foldl_ticks_paused dbLate (m + 1) (sessionInit dbLate 0 7200 .slowest)
      have i7 : (runP dbLate 0 7200 .slowest (List.replicate (m + 1) .tick)).speed
          = Speed.slowest := by
        unfold runP
        exact foldl_ticks_speed dbLate (m + 1) (sessionInit dbLate 0 7200 .slowest)
      rw [hrw]
      obtain ⟨o1, o2, o3, _, _, _, o7⟩ := tick_at_range_end _ i1 i2 i3 i5 i6 i7 i4
      exact ⟨o1, o2, o3, o7⟩

/-- Claim C5, counterexample.  An empty batch received from the channel is
dropped by the `if records:` guard of `emit_fire_update`: no consolidated
update is published and no statistic is touched — contrary to the claim's
"including an empty one". -/
theorem C5_counterexample :
    (run_consumer mkConsumer [.fire_batch ⟨[], 3600, .slow⟩]).published = [] ∧
    (run_consumer mkConsumer [.fire_batch ⟨[], 3600, .slow⟩]).total_fires = 0 ∧
    (run_consumer mkConsumer [.fire_batch ⟨[], 3600, .slow⟩]).current_time =
      none := by
  refine ⟨by decide, by decide, by decide⟩

/-- Claim C5, amended.  For every channel history: the Dispatcher publishes
exactly one consolidated update per *non-empty* batch received before the
sentinel, in order, carrying that batch's records, window timestamp and
speed together with a statistics snapshot — the cumulative emitted count up
to and including the batch, the batch's window timestamp as last window
time, and the (always zero) active-entity estimate `len(active_fires)`;
batches with no records are received but produce no statistics update and no
publication. -/
theorem C5_per_batch_publication (items : List QItem) :
    (run_consumer mkConsumer items).published.map
        (fun u => (u.fires, u.timestamp, u.speed)) =
      ((batchesBeforeEod items).filter (fun bt => !decide (bt.records = []))).map
        (fun bt => (bt.records, bt.timestamp, bt.speed)) ∧
    (run_consumer mkConsumer items).published.map (fun u => u.stats_total) =
      cumSums 0
        (((batchesBeforeEod items).filter
            (fun bt => !decide (bt.records = []))).map
          (fun bt => bt.records.length)) ∧
    (run_consumer mkConsumer items).published.map (fun u => u.stats_time) =
      ((batchesBeforeEod items).filter (fun bt => !decide (bt.records = []))).map
        (fun bt => some bt.timestamp) ∧
    (run_consumer mkConsumer items).published.map (fun u => u.stats_active) =
      ((batchesBeforeEod items).filter (fun bt => !decide (bt.records = []))).map
        (fun _ => 0) ∧
    (run_consumer mkConsumer items).total_fires =
      batchSum (batchesBeforeEod items) := by
  rw [run_consumer_published items mkConsumer, run_consumer_total items mkConsumer]
  simp only [mkConsumer, List.nil_append, List.length_nil, Nat.zero_add]
  exact ⟨expectedUpdates_proj 0 0 _, expectedUpdates_total 0 0 _,
    expectedUpdates_time 0 0 _, expectedUpdates_active 0 0 _, trivial⟩

/-- Claim C6, counterexample.  The channel is allocated once at module load
with `get_queue_size(DEFAULT_SPEED) = 100`; a session started at tier
`fastest` (catalog capacity 2000) keeps the 100-slot queue: the capacity is
not fixed at session start from the requested tier. -/
theorem C6_counterexample :
    initialApp.queueMaxsize = 100 ∧
    get_queue_size "fastest" = 2000 ∧
    (handle_start_playback initialApp 0 86400 "fastest").queueMaxsize = 100 ∧
    (handle_start_playback initialApp 0 86400 "fastest").queueMaxsize ≠
      get_queue_size "fastest" := by
  refine ⟨by decide, by decide, by decide, by decide⟩

/-- Claim C6, amended.  The channel capacity is fixed at *process* start
from the Speed Catalog entry of the *default* tier; neither a start command
requesting another tier (the handler only logs the desired size) nor a speed
change reallocates it.  The catalog itself does assign non-decreasing
capacities to faster tiers. -/
theorem C6_capacity_fixed :
    (∀ (a : AppState) (sD eD : Nat) (k : String),
      (handle_start_playback a sD eD k).queueMaxsize = a.queueMaxsize) ∧
    (∀ (a : AppState) (k : String),
      (handle_change_speed a k).queueMaxsize = a.queueMaxsize) ∧
    initialApp.queueMaxsize = get_queue_size DEFAULT_SPEED ∧
    get_queue_size "slowest" ≤ get_queue_size "slow" ∧
    get_queue_size "slow" ≤ get_queue_size "normal" ∧
    get_queue_size "normal" ≤ get_queue_size "fast" ∧
    get_queue_size "fast" ≤ get_queue_size "fastest" := by
  refine ⟨fun a sD eD k => rfl, fun a k => ?_, rfl, by decide, by decide,
    by decide, by decide⟩
  cases hk : parseSpeed k <;> simp [handle_change_speed, hk]

/-- Claim C7, code bug (flagged as such by the spec itself, §9): a start
command issued while a session is Running is *not* rejected — the handler
silently resets the in-flight session's range, cursor and speed, clears the
paused flag, and acknowledges with `'playback_started'` instead of a
conflict error. -/
theorem C7_start_overwrites_session :
    runningApp.producer.running = true ∧
    runningApp.producer.cursor = some 7200 ∧
    (handle_start_playback runningApp 0 86400 "slow").producer.cursor =
      some 0 ∧
    (handle_start_playback runningApp 0 86400 "slow").producer.end_date =
      some 86400 ∧
    (handle_start_playback runningApp 0 86400 "slow").producer.speed =
      Speed.slow ∧
    (handle_start_playback runningApp 0 86400 "slow").producer.paused =
      false ∧
    (handle_start_playback runningApp 0 86400 "slow").events =
      [SEvent.playback_started 0 86400 "slow"] := by
  refine ⟨by decide, by decide, by decide, by decide, by decide, by decide,
    by decide⟩

/-- Claim C8, confirmed.  `query_interval` is a total function: on a
storage-layer fault it returns the empty sequence (after logging), never
propagating the exception; on success it returns records sorted ascending by
timestamp that are, as a multiset, exactly the store records of the
half-open interval `(start_exclusive, end_inclusive]` — all of them, with no
result-size limit. -/
theorem C8_reader_contract (db : DB) (sp : Speed) (s e : Nat) :
    (db.fails s e = true → query_interval db sp s e = []) ∧
    (db.fails s e = false →
      List.Pairwise (fun x y : Rec => x.datetime_utc ≤ y.datetime_utc)
        (query_interval db sp s e) ∧
      (query_interval db sp s e).Perm
        ((db.rows.filter (inInterval s e)).map (toRec sp))) :=
  ⟨query_interval_of_fails db sp s e,
   fun h => ⟨query_interval_sorted db sp s e, query_interval_perm db sp s e h⟩⟩

/-- Witness for C8: on `dbFaulty`, the interval starting at 5 faults and
yields `[]`; the interval starting at 0 succeeds, sorted and complete. -/
theorem C8_reader_contract_witness :
    dbFaulty.fails 5 20 = true ∧
    query_interval dbFaulty .slow 5 20 = [] ∧
    dbFaulty.fails 0 20 = false ∧
    List.Pairwise (fun x y : Rec => x.datetime_utc ≤ y.datetime_utc)
      (query_interval dbFaulty .slow 0 20) ∧
    (query_interval dbFaulty .slow 0 20).Perm
      ((dbFaulty.rows.filter (inInterval 0 20)).map (toRec .slow)) :=
  ⟨rfl, (C8_reader_contract dbFaulty .slow 5 20).1 rfl, rfl,
   ((C8_reader_contract dbFaulty .slow 0 20).2 rfl).1,
   ((C8_reader_contract dbFaulty .slow 0 20).2 rfl).2⟩

/-- Claim C9, confirmed.  Pausing after `n` ticks, letting any number of
loop iterations (ticks of the wall clock and mere polls) pass while paused,
then resuming and ticking `k` more times produces *exactly* the same
producer state — in particular the same emitted batch sequence, same cursor
and same counters — as the uninterrupted run of `n + k` ticks: while paused
the Scheduler neither queries nor advances the cursor, and resume continues
from the unchanged cursor with nothing skipped or replayed. -/
theorem C9_pause_resume (db : DB) (a b : Nat) (sp : Speed) (n k : Nat)
    (seg : List Cmd) (hseg : ∀ x ∈ seg, x = Cmd.tick ∨ x = Cmd.poll)
    (hab : a ≤ b) :
    runP db a b sp (List.replicate n .tick ++
        .pause :: (seg ++ .resume :: List.replicate k .tick)) =
      runP db a b sp (List.replicate (n + k) .tick) := by
  unfold runP
  rw [List.foldl_append, List.foldl_cons, List.foldl_append, List.foldl_cons]
  have hSn : Inv db a b
      (List.foldl (step db) (sessionInit db a b sp) (List.replicate n .tick)) :=
    inv_foldl (inv_sessionInit db a b sp) _
  have hpn : (List.foldl (step db) (sessionInit db a b sp)
      (List.replicate n .tick)).paused = false :=
    foldl_ticks_paused db n (sessionInit db a b sp)
  have hid := foldl_paused_id hseg (inv_step hSn .pause) hab rfl
  rw [hid]
  have hres : step db
      (step db (List.foldl (step db) (sessionInit db a b sp)
        (List.replicate n .tick)) .pause) .resume =
      List.foldl (step db) (sessionInit db a b sp) (List.replicate n .tick) :=
    set_paused_false_eq hpn
  rw [hres, List.replicate_add, List.foldl_append]

/-- Witness for C9 at a concrete store, range, speed and schedule: one tick,
pause, a tick and a poll while paused, resume, one more tick — equal to the
uninterrupted two-tick run. -/
theorem C9_pause_resume_witness :
    (∀ x ∈ [Cmd.tick, Cmd.poll], x = Cmd.tick ∨ x = Cmd.poll) ∧
    (0 : Nat) ≤ 172800 ∧
    runP dbOne 0 172800 .slow (List.replicate 1 .tick ++
        .pause :: ([Cmd.tick, Cmd.poll] ++ .resume :: List.replicate 1 .tick)) =
      runP dbOne 0 172800 .slow (List.replicate (1 + 1) .tick) :=
  ⟨by decide, by decide,
    C9_pause_resume dbOne 0 172800 .slow 1 1 [Cmd.tick, Cmd.poll]
      (by decide) (by decide)⟩

/-- Claim C10, counterexample.  With a fault-free store holding one record
at timestamp exactly `range_start = 0` and range `[0, 172800]`: the
`COUNT(*)` bounds are bound as isoformat strings (`"...T..."`) against the
stored `"... ..."` format, so the record on `range_start`'s calendar day is
*not* counted — `total_records = 0` — while emission over the half-open
window skips it too, so `processed_records = 0` at natural completion and
`total_records` does not strictly exceed it, contrary to the claim. -/
theorem C10_counterexample :
    faultFree dbAtStart ∧
    (runP dbAtStart 0 172800 .slow [.tick]).ended = true ∧
    totalRecords dbAtStart 0 172800 = 0 ∧
    (runP dbAtStart 0 172800 .slow [.tick]).processed = 0 ∧
    ¬ totalRecords dbAtStart 0 172800 >
        (runP dbAtStart 0 172800 .slow [.tick]).processed :=
  ⟨fun _ _ => rfl, by decide, by decide, by decide, by decide⟩

/-- Claim C10, amended.  Because the count query binds isoformat bounds
(`'T'` separator) against the stored space-separated format, it selects by
calendar day: records on `range_start`'s day — in particular a record at
exactly `range_start` — are excluded from `total_records`; and since
emission covers half-open windows chained from `range_start`, such a record
is also never part of any emitted batch.  The claimed strict excess of
`total_records` over `processed_records` for a record at exactly
`range_start` therefore does not occur. -/
theorem C10_start_boundary (db : DB) (a b : Nat) (sp : Speed)
    (cmds : List Cmd) (r : Row) (_hr : r ∈ db.rows)
    (ht : r.datetime_utc = a) :
    r ∉ totalSelected db a b ∧
    (∀ bt ∈ batchesOf (runP db a b sp cmds).queue, ∀ x ∈ bt.records,
      x.datetime_utc ≠ a) := by
  constructor
  · intro hmem
    have hsel := List.of_mem_filter hmem
    simp only [storedGeIsoBound, storedLeIsoBound, Bool.and_eq_true,
      decide_eq_true_eq] at hsel
    rw [ht] at hsel
    omega
  · intro bt hbt x hx
    have := windowChain_records_gt (inv_runP db a b sp cmds).chain bt hbt x hx
    omega

/-- Witness for C10: the record at timestamp 0 of `dbAtStart` is in the
store, is excluded from the rows selected for `total_records`, and appears
in no emitted batch of the run. -/
theorem C10_start_boundary_witness :
    (⟨1, 0⟩ : Row) ∈ dbAtStart.rows ∧
    (⟨1, 0⟩ : Row) ∉ totalSelected dbAtStart 0 172800 ∧
    (∀ bt ∈ batchesOf (runP dbAtStart 0 172800 .slow [.tick]).queue,
      ∀ x ∈ bt.records, x.datetime_utc ≠ 0) :=
  ⟨by decide,
    (C10_start_boundary dbAtStart 0 172800 .slow [.tick] ⟨1, 0⟩ (by decide)
      rfl).1,
    (C10_start_boundary dbAtStart 0 172800 .slow [.tick] ⟨1, 0⟩ (by decide)
      rfl).2⟩

end FireTracking
